import Mathlib

/-!
Shallow embedding of the core of
src/java.base/linux/native/libnio/fs/LinuxNativeDispatcher.c
(OpenJDK Linux NIO native dispatcher): the statx-based metadata queries
(statx0, statxfd0, statx_wrapper), and the two-tier kernel copy loop
(directCopy0: copy_file_range, then sendfile64), including the
RESTARTABLE interrupted-call retry macro and the cooperative
cancellation flag polled between chunks.

Kernel calls are modelled by oracle streams (Nat-indexed results); the
cancellation flag by a Nat-indexed Bool stream (one entry per volatile
read).  Loops carry explicit fuel and return none when fuel runs out,
so every theorem quantifies over terminating executions.  Each model
function also returns the trace of observable events (chunk operations
with their requested byte count and post-restart result, and each read
of the cancellation flag), which lets the theorems speak about what was
issued and in which order.
-/

namespace LinuxDispatch

/-! ### errno and status constants (linux asm-generic values, nio.h values) -/

def EINTR : Nat := 4
def EAGAIN : Nat := 11
def EXDEV : Nat := 18
def EINVAL : Nat := 22
def ENOSYS : Nat := 38
def ECANCELED : Nat := 125

/-- nio.h: IOS_UNAVAILABLE -/
def IOS_UNAVAILABLE : Int := -2
/-- nio.h: IOS_UNSUPPORTED -/
def IOS_UNSUPPORTED : Int := -4
/-- nio.h: IOS_THROWN -/
def IOS_THROWN : Int := -5
/-- nio.h: IOS_UNSUPPORTED_CASE -/
def IOS_UNSUPPORTED_CASE : Int := -6

/-! ### statx flag and mask constants, as defined at the top of the file -/

def AT_SYMLINK_NOFOLLOW : Nat := 0x100
def AT_STATX_SYNC_AS_STAT : Nat := 0x0000
def STATX_BASIC_STATS : Nat := 0x7ff
def STATX_BTIME : Nat := 0x800
def STATX_ALL : Nat := STATX_BTIME ||| STATX_BASIC_STATS
def AT_EMPTY_PATH : Nat := 0x1000
def AT_FDCWD : Int := -100

def NO_FOLLOW_SYMLINK : Nat := 1
def FOLLOW_SYMLINK : Nat := 0

/-- directCopy0: chunk size when a cancellation address was supplied
("1 MB to give cancellation a chance"). -/
def CANCEL_CHUNK : Nat := 1048576

/-- directCopy0: chunk size otherwise ("maximum number of bytes that
sendfile() can transfer"). -/
def SENDFILE_MAX : Nat := 0x7ffff000

/-! ### Raw kernel-call results -/

/-- Result of one raw invocation of a byte-count returning kernel call
(copy_file_range or sendfile64): `ok n` is a return value of n >= 0
bytes; `err e` is a -1 return with errno = e. -/
inductive SysRes where
  | ok : Nat → SysRes
  | err : Nat → SysRes
deriving DecidableEq

/-- The retry condition of the RESTARTABLE macro:
(_result == -1) && (errno == EINTR). -/
def SysRes.isEintr : SysRes → Bool
  | .err e => e == EINTR
  | .ok _ => false

/-- Result of one raw invocation of statx: `ok` is a 0 return;
`err e` is a -1 return with errno = e. -/
inductive StxRes where
  | ok : StxRes
  | err : Nat → StxRes
deriving DecidableEq

/-- The RESTARTABLE retry condition for statx calls. -/
def StxRes.isEintr : StxRes → Bool
  | .err e => e == EINTR
  | .ok => false

/-- The RESTARTABLE macro: re-issue the same call (the next entry of
the same oracle stream, same arguments) while the retry condition
holds.  `fuel` bounds the number of raw invocations; returns the first
result not triggering a retry, together with the next stream index
(i.e. how far the stream was consumed). -/
def restartableGen {α : Type} (retry : α → Bool) (raw : Nat → α) :
    Nat → Nat → Option (α × Nat)
  | 0, _ => none
  | fuel + 1, i =>
    let r := raw i
    if retry r then restartableGen retry raw fuel (i + 1) else some (r, i + 1)

/-! ### directCopy0 model -/

/-- Observable events of a directCopy0 execution: each completed
(post-RESTARTABLE) chunk operation of either tier with its requested
byte count and result, and each volatile read of the cancellation
flag. -/
inductive Ev where
  | chunkA : Nat → SysRes → Ev
  | chunkB : Nat → SysRes → Ev
  | readCancel : Bool → Ev
deriving DecidableEq

/-- A pending Java exception on return: JNU_ThrowIOExceptionWithLastError
("Copy failed", errno) or sun.nio.fs.UnixException(errnum). -/
inductive Exn where
  | ioExn : Nat → Exn
  | unixExn : Nat → Exn
deriving DecidableEq

/-- What directCopy0 gives back to its caller: the jint return value
and the pending exception, if any. -/
structure Outcome where
  ret : Int
  exn : Option Exn
deriving DecidableEq

/-- The outcome of the cancellation branch:
throwUnixException(env, ECANCELED); return IOS_THROWN. -/
def cancelledOutcome : Outcome := ⟨IOS_THROWN, some (.unixExn ECANCELED)⟩

/-- Environment of one directCopy0 call: whether
my_copy_file_range_func resolved non-NULL, whether a cancellation
address was supplied (cancel != NULL), the successive values read from
the cancellation flag, and the raw result streams of the two kernel
primitives. -/
structure Env where
  hasCFR : Bool
  hasCancel : Bool
  flag : Nat → Bool
  rawA : Nat → SysRes
  rawB : Nat → SysRes

/-- const size_t count = cancel != NULL ? 1048576 : 0x7ffff000; -/
def chunkCount (hasCancel : Bool) : Nat :=
  if hasCancel then CANCEL_CHUNK else SENDFILE_MAX

/-- The between-chunks cancellation check, shared by both tiers:
if (cancel != NULL && *cancel != 0) then throw and return IOS_THROWN.
Returns (early-return outcome if any, next flag-read index, events). -/
def cancelStep (env : Env) (ic : Nat) : Option Outcome × Nat × List Ev :=
  if env.hasCancel then
    if env.flag ic then (some cancelledOutcome, ic + 1, [Ev.readCancel true])
    else (none, ic + 1, [Ev.readCancel false])
  else (none, ic, [])

/-- How the Tier A (copy_file_range) do-while loop ends: `ret o` is a
return statement executed inside the loop; `fell r` is the loop
condition (bytes_sent > 0) failing with final chunk result r. -/
inductive ALoopExit where
  | ret : Outcome → ALoopExit
  | fell : SysRes → ALoopExit
deriving DecidableEq

/-- Tier A loop of directCopy0:
do { RESTARTABLE(my_copy_file_range_func(src, NULL, dst, NULL, count, 0), bytes_sent);
     if (bytes_sent < 0) switch (errno) { EINVAL, ENOSYS, EXDEV: break;
                                          default: throw IOException; return IOS_THROWN; }
     if (cancel != NULL && *cancel != 0) { throw UnixException(ECANCELED); return IOS_THROWN; }
} while (bytes_sent > 0);
Arguments: fuel (loop iterations allowed), ia (rawA stream index),
ic (flag stream index).  Returns exit, final indices and events. -/
def tierALoop (env : Env) (count rfuel : Nat) :
    Nat → Nat → Nat → Option (ALoopExit × Nat × Nat × List Ev)
  | 0, _, _ => none
  | fuel + 1, ia, ic =>
    match restartableGen SysRes.isEintr env.rawA rfuel ia with
    | none => none
    | some (.err e, ia') =>
      if e = EINVAL ∨ e = ENOSYS ∨ e = EXDEV then
        -- ignore and try sendfile(); but the cancellation check still runs
        match cancelStep env ic with
        | (some o, ic', evs) =>
            some (.ret o, ia', ic', Ev.chunkA count (.err e) :: evs)
        | (none, ic', evs) =>
            some (.fell (.err e), ia', ic', Ev.chunkA count (.err e) :: evs)
      else
        some (.ret ⟨IOS_THROWN, some (.ioExn e)⟩, ia', ic,
              [Ev.chunkA count (.err e)])
    | some (.ok n, ia') =>
      match cancelStep env ic with
      | (some o, ic', evs) =>
          some (.ret o, ia', ic', Ev.chunkA count (.ok n) :: evs)
      | (none, ic', evs) =>
        if n = 0 then
          some (.fell (.ok 0), ia', ic', Ev.chunkA count (.ok 0) :: evs)
        else
          match tierALoop env count rfuel fuel ia' ic' with
          | none => none
          | some (ex, ia'', ic'', evs') =>
              some (ex, ia'', ic'', Ev.chunkA count (.ok n) :: (evs ++ evs'))

/-- Tier B loop of directCopy0:
do { RESTARTABLE(sendfile64(dst, src, NULL, count), bytes_sent);
     if (bytes_sent < 0) { if (errno == EAGAIN) return IOS_UNAVAILABLE;
                           if (errno == EINVAL || errno == ENOSYS) return IOS_UNSUPPORTED_CASE;
                           throw UnixException(errno); return IOS_THROWN; }
     if (cancel != NULL && *cancel != 0) { throw UnixException(ECANCELED); return IOS_THROWN; }
} while (bytes_sent > 0);
return 0;
Returns the outcome, final indices and events. -/
def tierBLoop (env : Env) (count rfuel : Nat) :
    Nat → Nat → Nat → Option (Outcome × Nat × Nat × List Ev)
  | 0, _, _ => none
  | fuel + 1, ib, ic =>
    match restartableGen SysRes.isEintr env.rawB rfuel ib with
    | none => none
    | some (.err e, ib') =>
      if e = EAGAIN then
        some (⟨IOS_UNAVAILABLE, none⟩, ib', ic, [Ev.chunkB count (.err e)])
      else if e = EINVAL ∨ e = ENOSYS then
        some (⟨IOS_UNSUPPORTED_CASE, none⟩, ib', ic, [Ev.chunkB count (.err e)])
      else
        some (⟨IOS_THROWN, some (.unixExn e)⟩, ib', ic, [Ev.chunkB count (.err e)])
    | some (.ok n, ib') =>
      match cancelStep env ic with
      | (some o, ic', evs) =>
          some (o, ib', ic', Ev.chunkB count (.ok n) :: evs)
      | (none, ic', evs) =>
        if n = 0 then
          some (⟨0, none⟩, ib', ic', Ev.chunkB count (.ok n) :: evs)
        else
          match tierBLoop env count rfuel fuel ib' ic' with
          | none => none
          | some (o, ib'', ic'', evs') =>
              some (o, ib'', ic'', Ev.chunkB count (.ok n) :: (evs ++ evs'))

/-- Java_sun_nio_fs_LinuxNativeDispatcher_directCopy0: choose the
chunk size, run Tier A when my_copy_file_range_func resolved, then
"if (bytes_sent == 0) return 0;" else fall through to the sendfile
loop.  Returns the outcome and the full event trace, or none when the
fuel bounds were insufficient. -/
def directCopy0 (env : Env) (fuel rfuel : Nat) : Option (Outcome × List Ev) :=
  let count := chunkCount env.hasCancel
  if env.hasCFR then
    match tierALoop env count rfuel fuel 0 0 with
    | none => none
    | some (.ret o, _, _, evs) => some (o, evs)
    | some (.fell r, _, ic, evs) =>
      if r = SysRes.ok 0 then some (⟨0, none⟩, evs)
      else
        match tierBLoop env count rfuel fuel 0 ic with
        | none => none
        | some (o, _, _, evs') => some (o, evs ++ evs')
  else
    match tierBLoop env count rfuel fuel 0 0 with
    | none => none
    | some (o, _, _, evs') => some (o, evs')

/-! ### statx0 / statxfd0 model -/

/-- The argument record of one raw call through my_statx_func:
dirfd, whether the pathname argument is the empty string, the flags
word as produced by statx_wrapper, and the mask. -/
structure StxCall where
  dirfd : Int
  emptyPathArg : Bool
  flags : Nat
  mask : Nat
deriving DecidableEq

/-- statx_wrapper flag computation: if (follow_symlink == NO_FOLLOW_SYMLINK)
flags |= AT_SYMLINK_NOFOLLOW. -/
def statx_wrapper_flags (flags : Nat) (follow_symlink : Nat) : Nat :=
  if follow_symlink = NO_FOLLOW_SYMLINK then flags ||| AT_SYMLINK_NOFOLLOW
  else flags

/-- Environment of a statx0/statxfd0 call: whether dlsym resolved
statx (my_statx_func != NULL), and the raw statx result stream. -/
structure StatxEnv where
  hasStatx : Bool
  raw : Nat → StxRes

/-- What a metadata query gives back: the jint return value (0 on
success and in the statx-unavailable case, errno on failure), whether
copy_statx_attributes was invoked (the only code that writes the
caller-supplied attributes record), the argument records of the raw
statx calls issued, and the final post-RESTARTABLE statx result (none
when no statx call was performed). -/
structure StatxOutcome where
  ret : Nat
  wrote : Bool
  calls : List StxCall
  statRes : Option StxRes
deriving DecidableEq

/-- The arguments statx0 passes through statx_wrapper:
statx_wrapper(AT_FDCWD, path, AT_STATX_SYNC_AS_STAT, STATX_ALL, &buf, f_symlink)
with f_symlink = NO_FOLLOW_SYMLINK iff follow_links == JNI_FALSE. -/
def statx0Call (follow_links : Bool) : StxCall :=
  { dirfd := AT_FDCWD
    emptyPathArg := false
    flags := statx_wrapper_flags AT_STATX_SYNC_AS_STAT
      (if follow_links = false then NO_FOLLOW_SYMLINK else FOLLOW_SYMLINK)
    mask := STATX_ALL }

/-- The arguments statxfd0 passes through statx_wrapper:
statx_wrapper(fd, "", AT_EMPTY_PATH | AT_STATX_SYNC_AS_STAT, STATX_ALL, &buf, FOLLOW_SYMLINK). -/
def statxfd0Call (fd : Int) : StxCall :=
  { dirfd := fd
    emptyPathArg := true
    flags := statx_wrapper_flags (AT_EMPTY_PATH ||| AT_STATX_SYNC_AS_STAT)
      FOLLOW_SYMLINK
    mask := STATX_ALL }

/-- Shared body of statx0 and statxfd0: if my_statx_func is NULL,
do nothing and return 0; else RESTARTABLE the statx call, and on
success invoke copy_statx_attributes and return 0, on failure return
errno. -/
def statxCore (env : StatxEnv) (rfuel : Nat) (call : StxCall) :
    Option StatxOutcome :=
  if env.hasStatx then
    match restartableGen StxRes.isEintr env.raw rfuel 0 with
    | none => none
    | some (.ok, j) =>
        some { ret := 0, wrote := true, calls := List.replicate j call,
               statRes := some .ok }
    | some (.err e, j) =>
        some { ret := e, wrote := false, calls := List.replicate j call,
               statRes := some (.err e) }
  else
    -- Do nothing, when statx is not supported. The Java code should
    -- use stat64 via UnixNativeDispatcher instead
    some { ret := 0, wrote := false, calls := [], statRes := none }

/-- Java_sun_nio_fs_LinuxNativeDispatcher_statx0. -/
def statx0 (env : StatxEnv) (rfuel : Nat) (follow_links : Bool) :
    Option StatxOutcome :=
  statxCore env rfuel (statx0Call follow_links)

/-- Java_sun_nio_fs_LinuxNativeDispatcher_statxfd0. -/
def statxfd0 (env : StatxEnv) (rfuel : Nat) (fd : Int) :
    Option StatxOutcome :=
  statxCore env rfuel (statxfd0Call fd)

/-! ### Concrete environments used to exercise the models -/

/-- Range-copy available, cancellation handle supplied and already
set, every copy_file_range chunk reporting completion (0 bytes). -/
def envZeroCancel : Env :=
  ⟨true, true, fun _ => true, fun _ => .ok 0, fun _ => .ok 0⟩

/-- Range-copy available, no cancellation handle, copy_file_range
reporting completion at once. -/
def envZeroPlain : Env :=
  ⟨true, false, fun _ => false, fun _ => .ok 0, fun _ => .ok 0⟩

/-- Range-copy unavailable and sendfile failing with ENOSYS. -/
def envNoCfrEnosys : Env :=
  ⟨false, false, fun _ => false, fun _ => .ok 0, fun _ => .err ENOSYS⟩

/-- Range-copy unavailable and sendfile failing with EAGAIN. -/
def envNoCfrEagain : Env :=
  ⟨false, false, fun _ => false, fun _ => .ok 0, fun _ => .err EAGAIN⟩

/-- Range-copy failing with EINVAL while the cancellation flag is
already set. -/
def envEinvalCancel : Env :=
  ⟨true, true, fun _ => true, fun _ => .err EINVAL, fun _ => .ok 0⟩

/-- Range-copy failing with EINVAL, no cancellation handle, sendfile
completing at once. -/
def envEinvalPlain : Env :=
  ⟨true, false, fun _ => false, fun _ => .err EINVAL, fun _ => .ok 0⟩

/-- First copy_file_range invocation interrupted (EINTR), the retry
reporting completion. -/
def envEintrOnce : Env :=
  ⟨true, false, fun _ => false,
   fun i => if i = 0 then SysRes.err EINTR else SysRes.ok 0,
   fun _ => SysRes.ok 0⟩

/-- statx unresolved by dlsym. -/
def stxEnvAbsent : StatxEnv := ⟨false, fun _ => .ok⟩

/-- statx available and succeeding at once. -/
def stxEnvOk : StatxEnv := ⟨true, fun _ => .ok⟩

/-! ### Basic lemmas -/

/-- The RESTARTABLE macro never hands back a result satisfying its own
retry condition: it loops until the condition fails. -/
theorem restartableGen_not_retry {α : Type} (retry : α → Bool) (raw : Nat → α) :
    ∀ fuel i r j, restartableGen retry raw fuel i = some (r, j) →
      retry r = false := by
  intro fuel
  induction fuel with
  | zero => intro i r j h; simp [restartableGen] at h
  | succ n ih =>
    intro i r j h
    rw [restartableGen] at h
    by_cases hr : retry (raw i)
    · simp only [hr, if_true] at h
      exact ih _ _ _ h
    · simp only [hr, if_false] at h
      obtain ⟨h1, _⟩ := Prod.mk.injEq .. ▸ Option.some.injEq .. ▸ h
      exact h1 ▸ (Bool.not_eq_true _ ▸ hr)

/-- The three possible behaviours of the between-chunks cancellation
check. -/
theorem cancelStep_spec (env : Env) (ic : Nat) :
    cancelStep env ic = (some cancelledOutcome, ic + 1, [Ev.readCancel true]) ∨
    cancelStep env ic = (none, ic + 1, [Ev.readCancel false]) ∨
    cancelStep env ic = (none, ic, []) := by
  unfold cancelStep
  by_cases h1 : env.hasCancel
  · by_cases h2 : env.flag ic
    · left; simp [h1, h2]
    · right; left; simp [h1, h2]
  · right; right; simp [h1]

/-- A non-EINTR SysRes error has errno different from EINTR. -/
theorem sys_isEintr_false_ne {e : Nat}
    (h : SysRes.isEintr (SysRes.err e) = false) : e ≠ EINTR := by
  simpa [SysRes.isEintr] using h

/-- A non-EINTR StxRes error has errno different from EINTR. -/
theorem stx_isEintr_false_ne {e : Nat}
    (h : StxRes.isEintr (StxRes.err e) = false) : e ≠ EINTR := by
  simpa [StxRes.isEintr] using h

/-- Master characterization of the Tier B (sendfile) loop: shape of
the event trace, at least one chunk issued, behaviour when the
cancellation flag is observed set, the outcome forced by an error
result, and which outcomes are possible at all. -/
theorem tierBLoop_master (env : Env) (count rfuel : Nat) :
    ∀ fuel ib ic o ib' ic' evs,
      tierBLoop env count rfuel fuel ib ic = some (o, ib', ic', evs) →
      ((∀ ev ∈ evs, (∃ r, ev = Ev.chunkB count r ∧ r.isEintr = false) ∨
          ∃ b, ev = Ev.readCancel b) ∧
       (∃ c r, Ev.chunkB c r ∈ evs) ∧
       (Ev.readCancel true ∈ evs →
          o = cancelledOutcome ∧ ∃ pre, evs = pre ++ [Ev.readCancel true]) ∧
       (∀ c e, Ev.chunkB c (SysRes.err e) ∈ evs →
          o = if e = EAGAIN then ⟨IOS_UNAVAILABLE, none⟩
              else if e = EINVAL ∨ e = ENOSYS then ⟨IOS_UNSUPPORTED_CASE, none⟩
              else ⟨IOS_THROWN, some (.unixExn e)⟩) ∧
       (o.ret ≠ IOS_UNSUPPORTED ∧
        (∀ e, o.exn = some (Exn.ioExn e) → False) ∧
        (∀ e, o.exn = some (Exn.unixExn e) → e ≠ EINTR))) := by
  intro fuel
  induction fuel with
  | zero => intro ib ic o ib' ic' evs h; simp [tierBLoop] at h
  | succ n ih =>
    intro ib ic o ib' ic' evs h
    rw [tierBLoop] at h
    split at h
    · exact absurd h (by simp)
    · -- chunk result is an error
      rename_i e ib2 hres
      have hne : e ≠ EINTR :=
        sys_isEintr_false_ne (restartableGen_not_retry _ _ _ _ _ _ hres)
      split at h
      · -- errno == EAGAIN
        rename_i hEA
        simp only [Option.some.injEq, Prod.mk.injEq] at h
        obtain ⟨rfl, rfl, rfl, rfl⟩ := h
        refine ⟨?_, ⟨count, .err e, by simp⟩, by simp, ?_,
          by simp [IOS_UNAVAILABLE, IOS_UNSUPPORTED], ?_, ?_⟩
        · intro ev hev
          simp only [List.mem_cons, List.not_mem_nil, or_false] at hev
          exact Or.inl ⟨.err e, hev,
            restartableGen_not_retry _ _ _ _ _ _ hres⟩
        · intro c e' hmem
          simp only [List.mem_cons, List.not_mem_nil, or_false] at hmem
          injection hmem with h1 h2
          injection h2 with h3
          subst h3
          simp [hEA]
        · intro e' he; simp at he
        · intro e' he; simp at he
      · -- errno != EAGAIN
        rename_i hEA
        split at h
        · -- errno == EINVAL || errno == ENOSYS
          rename_i hIN
          simp only [Option.some.injEq, Prod.mk.injEq] at h
          obtain ⟨rfl, rfl, rfl, rfl⟩ := h
          refine ⟨?_, ⟨count, .err e, by simp⟩, by simp, ?_,
            by simp [IOS_UNSUPPORTED_CASE, IOS_UNSUPPORTED], ?_, ?_⟩
          · intro ev hev
            simp only [List.mem_cons, List.not_mem_nil, or_false] at hev
            exact Or.inl ⟨.err e, hev,
              restartableGen_not_retry _ _ _ _ _ _ hres⟩
          · intro c e' hmem
            simp only [List.mem_cons, List.not_mem_nil, or_false] at hmem
            injection hmem with h1 h2
            injection h2 with h3
            subst h3
            rw [if_neg hEA, if_pos hIN]
          · intro e' he; simp at he
          · intro e' he; simp at he
        · -- any other errno: fatal
          rename_i hIN
          simp only [Option.some.injEq, Prod.mk.injEq] at h
          obtain ⟨rfl, rfl, rfl, rfl⟩ := h
          refine ⟨?_, ⟨count, .err e, by simp⟩, by simp, ?_,
            by simp [IOS_THROWN, IOS_UNSUPPORTED], ?_, ?_⟩
          · intro ev hev
            simp only [List.mem_cons, List.not_mem_nil, or_false] at hev
            exact Or.inl ⟨.err e, hev,
              restartableGen_not_retry _ _ _ _ _ _ hres⟩
          · intro c e' hmem
            simp only [List.mem_cons, List.not_mem_nil, or_false] at hmem
            injection hmem with h1 h2
            injection h2 with h3
            subst h3
            rw [if_neg hEA, if_neg hIN]
          · intro e' he; simp at he
          · intro e' he
            simp only [Option.some.injEq] at he
            injection he with h3
            exact h3 ▸ hne
    · -- chunk result is ok nres
      rename_i nres ib2 hres
      split at h
      · -- cancellation flag observed set
        rename_i o2 ic2 evs2 hcs
        rcases cancelStep_spec env ic with hc | hc | hc <;> rw [hc] at hcs <;>
          simp only [Prod.mk.injEq, Option.some.injEq] at hcs
        · obtain ⟨rfl, rfl, rfl⟩ := hcs
          simp only [Option.some.injEq, Prod.mk.injEq] at h
          obtain ⟨rfl, rfl, rfl, rfl⟩ := h
          refine ⟨?_, ⟨count, .ok nres, by simp⟩, ?_, ?_,
            by simp [cancelledOutcome, IOS_THROWN, IOS_UNSUPPORTED], ?_, ?_⟩
          · intro ev hev
            simp only [List.mem_cons, List.not_mem_nil, or_false] at hev
            rcases hev with rfl | rfl
            · exact Or.inl ⟨.ok nres, rfl, rfl⟩
            · exact Or.inr ⟨true, rfl⟩
          · intro _
            exact ⟨rfl, [Ev.chunkB count (.ok nres)], rfl⟩
          · intro c e' hmem
            simp only [List.mem_cons, List.not_mem_nil, or_false] at hmem
            rcases hmem with hmem | hmem <;> simp at hmem
          · intro e' he; simp [cancelledOutcome] at he
          · intro e' he
            simp only [cancelledOutcome, Option.some.injEq] at he
            injection he with h3
            subst h3
            decide
        · exact absurd hcs.1 (by simp)
        · exact absurd hcs.1 (by simp)
      · -- cancellation check passed (flag clear or no handle)
        rename_i ic2 evs2 hcs
        have hevs2 : evs2 = [Ev.readCancel false] ∨ evs2 = [] := by
          rcases cancelStep_spec env ic with hc | hc | hc <;> rw [hc] at hcs <;>
            simp only [Prod.mk.injEq, Option.some.injEq] at hcs
          · exact absurd hcs.1 (by simp)
          · exact Or.inl hcs.2.2.symm
          · exact Or.inr hcs.2.2.symm
        split at h
        · -- nres = 0: loop ends, return 0
          rename_i hz
          simp only [Option.some.injEq, Prod.mk.injEq] at h
          obtain ⟨rfl, rfl, rfl, rfl⟩ := h
          refine ⟨?_, ⟨count, .ok nres, by simp⟩, ?_, ?_,
            by simp [IOS_UNSUPPORTED], ?_, ?_⟩
          · intro ev hev
            simp only [List.mem_cons] at hev
            rcases hev with rfl | hev
            · exact Or.inl ⟨.ok nres, rfl, rfl⟩
            · rcases hevs2 with rfl | rfl
              · simp only [List.mem_cons, List.not_mem_nil, or_false] at hev
                exact Or.inr ⟨false, hev ▸ rfl⟩
              · simp at hev
          · intro hmem
            simp only [List.mem_cons] at hmem
            rcases hmem with hmem | hmem
            · simp at hmem
            · rcases hevs2 with rfl | rfl <;> simp at hmem
          · intro c e' hmem
            simp only [List.mem_cons] at hmem
            rcases hmem with hmem | hmem
            · simp at hmem
            · rcases hevs2 with rfl | rfl <;> simp at hmem
          · intro e' he; simp at he
          · intro e' he; simp at he
        · -- nres > 0: loop again
          rename_i hz
          split at h
          · exact absurd h (by simp)
          · rename_i o2 ib3 ic3 evs3 hrec
            simp only [Option.some.injEq, Prod.mk.injEq] at h
            obtain ⟨rfl, rfl, rfl, rfl⟩ := h
            obtain ⟨ihShape, ihChunk, ihCancel, ihErr, ihOut⟩ :=
              ih _ _ _ _ _ _ hrec
            refine ⟨?_, ⟨count, .ok nres, by simp⟩, ?_, ?_, ihOut⟩
            · intro ev hev
              simp only [List.mem_cons, List.mem_append] at hev
              rcases hev with rfl | hev | hev
              · exact Or.inl ⟨.ok nres, rfl, rfl⟩
              · rcases hevs2 with rfl | rfl
                · simp only [List.mem_cons, List.not_mem_nil, or_false] at hev
                  exact Or.inr ⟨false, hev ▸ rfl⟩
                · simp at hev
              · exact ihShape ev hev
            · intro hmem
              simp only [List.mem_cons, List.mem_append] at hmem
              have hmem3 : Ev.readCancel true ∈ evs3 := by
                rcases hmem with hmem | hmem | hmem
                · simp at hmem
                · rcases hevs2 with rfl | rfl <;> simp at hmem
                · exact hmem
              obtain ⟨ho, pre, hpre⟩ := ihCancel hmem3
              refine ⟨ho, Ev.chunkB count (.ok nres) :: (evs2 ++ pre), ?_⟩
              simp [hpre]
            · intro c e' hmem
              simp only [List.mem_cons, List.mem_append] at hmem
              rcases hmem with hmem | hmem | hmem
              · simp at hmem
              · rcases hevs2 with rfl | rfl <;> simp at hmem
              · exact ihErr c e' hmem

/-- Master characterization of the Tier A (copy_file_range) loop:
shape of the event trace, behaviour when the cancellation flag is
observed set, the loop exit forced by a terminal chunk result when the
flag was never observed set, the exit forced by a fatal error, and
which early-return outcomes are possible at all. -/
theorem tierALoop_master (env : Env) (count rfuel : Nat) :
    ∀ fuel ia ic ex ia' ic' evs,
      tierALoop env count rfuel fuel ia ic = some (ex, ia', ic', evs) →
      ((∀ ev ∈ evs, (∃ r, ev = Ev.chunkA count r ∧ r.isEintr = false) ∨
          ∃ b, ev = Ev.readCancel b) ∧
       (Ev.readCancel true ∈ evs →
          ex = .ret cancelledOutcome ∧ ∃ pre, evs = pre ++ [Ev.readCancel true]) ∧
       (∀ c r, Ev.chunkA c r ∈ evs → Ev.readCancel true ∉ evs →
          (r = SysRes.ok 0 ∨
            ∃ e, r = SysRes.err e ∧ (e = EINVAL ∨ e = ENOSYS ∨ e = EXDEV)) →
          ex = .fell r) ∧
       (∀ c e, Ev.chunkA c (SysRes.err e) ∈ evs →
          ¬(e = EINVAL ∨ e = ENOSYS ∨ e = EXDEV) →
          ex = .ret ⟨IOS_THROWN, some (.ioExn e)⟩) ∧
       (∀ o, ex = .ret o →
          o = cancelledOutcome ∨
          ∃ e, o = ⟨IOS_THROWN, some (.ioExn e)⟩ ∧ e ≠ EINTR)) := by
  intro fuel
  induction fuel with
  | zero => intro ia ic ex ia' ic' evs h; simp [tierALoop] at h
  | succ n ih =>
    intro ia ic ex ia' ic' evs h
    rw [tierALoop] at h
    split at h
    · exact absurd h (by simp)
    · -- chunk result is an error
      rename_i e ia2 hres
      have hne : e ≠ EINTR :=
        sys_isEintr_false_ne (restartableGen_not_retry _ _ _ _ _ _ hres)
      split at h
      · -- errno is EINVAL, ENOSYS or EXDEV: ignore and try sendfile()
        rename_i hIG
        split at h
        · -- but the cancellation flag was observed set first
          rename_i o2 ic2 evs2 hcs
          rcases cancelStep_spec env ic with hc | hc | hc <;> rw [hc] at hcs <;>
            simp only [Prod.mk.injEq, Option.some.injEq] at hcs
          · obtain ⟨rfl, rfl, rfl⟩ := hcs
            simp only [Option.some.injEq, Prod.mk.injEq] at h
            obtain ⟨rfl, rfl, rfl, rfl⟩ := h
            refine ⟨?_, ?_, ?_, ?_, ?_⟩
            · intro ev hev
              simp only [List.mem_cons, List.not_mem_nil, or_false] at hev
              rcases hev with rfl | rfl
              · exact Or.inl ⟨.err e, rfl,
                  restartableGen_not_retry _ _ _ _ _ _ hres⟩
              · exact Or.inr ⟨true, rfl⟩
            · intro _
              exact ⟨rfl, [Ev.chunkA count (.err e)], rfl⟩
            · intro c r _ hnot _
              exact absurd (by simp) hnot
            · intro c e2 hmem hfatal
              simp only [List.mem_cons, List.not_mem_nil, or_false] at hmem
              rcases hmem with hmem | hmem
              · injection hmem with h1 h2
                injection h2 with h3
                exact absurd (h3 ▸ hIG) hfatal
              · exact absurd hmem (by simp)
            · intro o ho
              injection ho with ho2
              exact Or.inl ho2.symm
          · exact absurd hcs.1 (by simp)
          · exact absurd hcs.1 (by simp)
        · -- flag clear or no handle: loop falls through
          rename_i ic2 evs2 hcs
          have hevs2 : evs2 = [Ev.readCancel false] ∨ evs2 = [] := by
            rcases cancelStep_spec env ic with hc | hc | hc <;> rw [hc] at hcs <;>
              simp only [Prod.mk.injEq, Option.some.injEq] at hcs
            · exact absurd hcs.1 (by simp)
            · exact Or.inl hcs.2.2.symm
            · exact Or.inr hcs.2.2.symm
          simp only [Option.some.injEq, Prod.mk.injEq] at h
          obtain ⟨rfl, rfl, rfl, rfl⟩ := h
          refine ⟨?_, ?_, ?_, ?_, ?_⟩
          · intro ev hev
            simp only [List.mem_cons] at hev
            rcases hev with rfl | hev
            · exact Or.inl ⟨.err e, rfl,
                restartableGen_not_retry _ _ _ _ _ _ hres⟩
            · rcases hevs2 with rfl | rfl
              · simp only [List.mem_cons, List.not_mem_nil, or_false] at hev
                exact Or.inr ⟨false, hev ▸ rfl⟩
              · exact absurd hev (by simp)
          · intro hmem
            rcases hevs2 with rfl | rfl <;> simp at hmem
          · intro c r hmem hnot hdich
            simp only [List.mem_cons] at hmem
            rcases hmem with hmem | hmem
            · injection hmem with h1 h2
              exact h2 ▸ rfl
            · rcases hevs2 with rfl | rfl <;> simp at hmem
          · intro c e2 hmem hfatal
            simp only [List.mem_cons] at hmem
            rcases hmem with hmem | hmem
            · injection hmem with h1 h2
              injection h2 with h3
              exact absurd (h3 ▸ hIG) hfatal
            · rcases hevs2 with rfl | rfl <;> simp at hmem
          · intro o ho
            exact ALoopExit.noConfusion ho
      · -- any other errno: fatal, throw IOException
        rename_i hIG
        simp only [Option.some.injEq, Prod.mk.injEq] at h
        obtain ⟨rfl, rfl, rfl, rfl⟩ := h
        refine ⟨?_, by simp, ?_, ?_, ?_⟩
        · intro ev hev
          simp only [List.mem_cons, List.not_mem_nil, or_false] at hev
          exact Or.inl ⟨.err e, hev,
            restartableGen_not_retry _ _ _ _ _ _ hres⟩
        · intro c r hmem hnot hdich
          simp only [List.mem_cons, List.not_mem_nil, or_false] at hmem
          rcases hdich with rfl | ⟨e2, rfl, hig2⟩
          · simp at hmem
          · injection hmem with h1 h2
            injection h2 with h3
            exact absurd (h3 ▸ hig2) hIG
        · intro c e2 hmem hfatal
          simp only [List.mem_cons, List.not_mem_nil, or_false] at hmem
          injection hmem with h1 h2
          injection h2 with h3
          exact h3 ▸ rfl
        · intro o ho
          injection ho with ho2
          exact Or.inr ⟨e, ho2.symm, hne⟩
    · -- chunk result is ok nres
      rename_i nres ia2 hres
      split at h
      · -- cancellation flag observed set
        rename_i o2 ic2 evs2 hcs
        rcases cancelStep_spec env ic with hc | hc | hc <;> rw [hc] at hcs <;>
          simp only [Prod.mk.injEq, Option.some.injEq] at hcs
        · obtain ⟨rfl, rfl, rfl⟩ := hcs
          simp only [Option.some.injEq, Prod.mk.injEq] at h
          obtain ⟨rfl, rfl, rfl, rfl⟩ := h
          refine ⟨?_, ?_, ?_, ?_, ?_⟩
          · intro ev hev
            simp only [List.mem_cons, List.not_mem_nil, or_false] at hev
            rcases hev with rfl | rfl
            · exact Or.inl ⟨.ok nres, rfl, rfl⟩
            · exact Or.inr ⟨true, rfl⟩
          · intro _
            exact ⟨rfl, [Ev.chunkA count (.ok nres)], rfl⟩
          · intro c r _ hnot _
            exact absurd (by simp) hnot
          · intro c e2 hmem hfatal
            simp only [List.mem_cons, List.not_mem_nil, or_false] at hmem
            rcases hmem with hmem | hmem
            · simp at hmem
            · simp at hmem
          · intro o ho
            injection ho with ho2
            exact Or.inl ho2.symm
        · exact absurd hcs.1 (by simp)
        · exact absurd hcs.1 (by simp)
      · -- cancellation check passed
        rename_i ic2 evs2 hcs
        have hevs2 : evs2 = [Ev.readCancel false] ∨ evs2 = [] := by
          rcases cancelStep_spec env ic with hc | hc | hc <;> rw [hc] at hcs <;>
            simp only [Prod.mk.injEq, Option.some.injEq] at hcs
          · exact absurd hcs.1 (by simp)
          · exact Or.inl hcs.2.2.symm
          · exact Or.inr hcs.2.2.symm
        split at h
        · -- nres = 0: the copy is complete, loop exits
          rename_i hz
          simp only [Option.some.injEq, Prod.mk.injEq] at h
          obtain ⟨rfl, rfl, rfl, rfl⟩ := h
          refine ⟨?_, ?_, ?_, ?_, ?_⟩
          · intro ev hev
            simp only [List.mem_cons] at hev
            rcases hev with rfl | hev
            · exact Or.inl ⟨.ok 0, rfl, rfl⟩
            · rcases hevs2 with rfl | rfl
              · simp only [List.mem_cons, List.not_mem_nil, or_false] at hev
                exact Or.inr ⟨false, hev ▸ rfl⟩
              · exact absurd hev (by simp)
          · intro hmem
            rcases hevs2 with rfl | rfl <;> simp at hmem
          · intro c r hmem hnot hdich
            simp only [List.mem_cons] at hmem
            rcases hmem with hmem | hmem
            · injection hmem with h1 h2
              exact h2 ▸ rfl
            · rcases hevs2 with rfl | rfl <;> simp at hmem
          · intro c e2 hmem hfatal
            simp only [List.mem_cons] at hmem
            rcases hmem with hmem | hmem
            · simp at hmem
            · rcases hevs2 with rfl | rfl <;> simp at hmem
          · intro o ho
            exact ALoopExit.noConfusion ho
        · -- nres > 0: loop again
          rename_i hz
          split at h
          · exact absurd h (by simp)
          · rename_i ex2 ia3 ic3 evs3 hrec
            simp only [Option.some.injEq, Prod.mk.injEq] at h
            obtain ⟨rfl, rfl, rfl, rfl⟩ := h
            obtain ⟨ihShape, ihCancel, ihTerm, ihFatal, ihRet⟩ :=
              ih _ _ _ _ _ _ hrec
            refine ⟨?_, ?_, ?_, ?_, ihRet⟩
            · intro ev hev
              simp only [List.mem_cons, List.mem_append] at hev
              rcases hev with rfl | hev | hev
              · exact Or.inl ⟨.ok nres, rfl, rfl⟩
              · rcases hevs2 with rfl | rfl
                · simp only [List.mem_cons, List.not_mem_nil, or_false] at hev
                  exact Or.inr ⟨false, hev ▸ rfl⟩
                · exact absurd hev (by simp)
              · exact ihShape ev hev
            · intro hmem
              simp only [List.mem_cons, List.mem_append] at hmem
              have hmem3 : Ev.readCancel true ∈ evs3 := by
                rcases hmem with hmem | hmem | hmem
                · simp at hmem
                · rcases hevs2 with rfl | rfl <;> simp at hmem
                · exact hmem
              obtain ⟨ho, pre, hpre⟩ := ihCancel hmem3
              refine ⟨ho, Ev.chunkA count (.ok nres) :: (evs2 ++ pre), ?_⟩
              simp [hpre]
            · intro c r hmem hnot hdich
              simp only [List.mem_cons, List.mem_append] at hmem
              have hnot3 : Ev.readCancel true ∉ evs3 := by
                intro hx
                exact hnot (by simp [hx])
              rcases hmem with hmem | hmem | hmem
              · exfalso
                injection hmem with h1 h2
                rcases hdich with rfl | ⟨e2, rfl, hig2⟩
                · exact hz (SysRes.ok.inj h2.symm)
                · exact SysRes.noConfusion h2
              · rcases hevs2 with rfl | rfl <;> simp at hmem
              · exact ihTerm c r hmem hnot3 hdich
            · intro c e2 hmem hfatal
              simp only [List.mem_cons, List.mem_append] at hmem
              rcases hmem with hmem | hmem | hmem
              · simp at hmem
              · rcases hevs2 with rfl | rfl <;> simp at hmem
              · exact ihFatal c e2 hmem hfatal

/-- Inversion of the top level of directCopy0: an execution either
ends inside Tier A with an early return, or Tier A observes a
zero-length chunk and the call returns 0, or Tier A fell through on an
ignored error and Tier B decides the outcome, or Tier A was skipped
because the capability table marked range-copy absent and Tier B ran
alone. -/
theorem directCopy0_inv (env : Env) (fuel rfuel : Nat) (o : Outcome)
    (evs : List Ev) (h : directCopy0 env fuel rfuel = some (o, evs)) :
    (env.hasCFR = true ∧ ∃ ia' ic' evsA,
       tierALoop env (chunkCount env.hasCancel) rfuel fuel 0 0 =
         some (.ret o, ia', ic', evsA) ∧ evs = evsA) ∨
    (env.hasCFR = true ∧ ∃ ia' ic' evsA,
       tierALoop env (chunkCount env.hasCancel) rfuel fuel 0 0 =
         some (.fell (SysRes.ok 0), ia', ic', evsA) ∧ evs = evsA ∧
       o = ⟨0, none⟩) ∨
    (env.hasCFR = true ∧ ∃ r ia' ic' evsA ib2 ic2 evsB,
       tierALoop env (chunkCount env.hasCancel) rfuel fuel 0 0 =
         some (.fell r, ia', ic', evsA) ∧ r ≠ SysRes.ok 0 ∧
       tierBLoop env (chunkCount env.hasCancel) rfuel fuel 0 ic' =
         some (o, ib2, ic2, evsB) ∧ evs = evsA ++ evsB) ∨
    (env.hasCFR = false ∧ ∃ ib2 ic2 evsB,
       tierBLoop env (chunkCount env.hasCancel) rfuel fuel 0 0 =
         some (o, ib2, ic2, evsB) ∧ evs = evsB) := by
  simp only [directCopy0] at h
  split at h
  · rename_i hcfr
    split at h
    · exact absurd h (by simp)
    · rename_i o2 ia' ic' evsA hA
      simp only [Option.some.injEq, Prod.mk.injEq] at h
      obtain ⟨rfl, rfl⟩ := h
      exact Or.inl ⟨hcfr, ia', ic', evsA, hA, rfl⟩
    · rename_i r ia' ic' evsA hA
      split at h
      · rename_i hr
        subst hr
        simp only [Option.some.injEq, Prod.mk.injEq] at h
        obtain ⟨rfl, rfl⟩ := h
        exact Or.inr (Or.inl ⟨hcfr, ia', ic', evsA, hA, rfl, rfl⟩)
      · rename_i hr
        split at h
        · exact absurd h (by simp)
        · rename_i o2 ib2 ic2 evsB hB
          simp only [Option.some.injEq, Prod.mk.injEq] at h
          obtain ⟨rfl, rfl⟩ := h
          exact Or.inr (Or.inr (Or.inl
            ⟨hcfr, r, ia', ic', evsA, ib2, ic2, evsB, hA, hr, hB, rfl⟩))
  · rename_i hcfr
    split at h
    · exact absurd h (by simp)
    · rename_i o2 ib2 ic2 evsB hB
      simp only [Option.some.injEq, Prod.mk.injEq] at h
      obtain ⟨rfl, rfl⟩ := h
      exact Or.inr (Or.inr (Or.inr
        ⟨by simpa using hcfr, ib2, ic2, evsB, hB, rfl⟩))

/-- Characterization of the shared statx0/statxfd0 body: the
attributes record is written exactly when a statx call succeeded; a
failed statx forces an errno return with no write; the
statx-unavailable case does nothing and returns 0. -/
theorem statxCore_cases (env : StatxEnv) (rfuel : Nat) (call : StxCall)
    (out : StatxOutcome) (h : statxCore env rfuel call = some out) :
    (out.wrote = true ↔ out.statRes = some StxRes.ok) ∧
    (∀ e, out.statRes = some (StxRes.err e) →
       out.ret = e ∧ out.wrote = false ∧ e ≠ EINTR) ∧
    (out.statRes = none →
       env.hasStatx = false ∧ out.ret = 0 ∧ out.wrote = false ∧
       out.calls = []) ∧
    (∀ c ∈ out.calls, c = call) ∧
    out.ret ≠ EINTR := by
  unfold statxCore at h
  split at h
  · rename_i hst
    split at h
    · exact absurd h (by simp)
    · rename_i j heq
      simp only [Option.some.injEq] at h
      subst h
      refine ⟨by simp, by simp, by simp, ?_, by show (0 : Nat) ≠ EINTR; decide⟩
      intro c hc
      simp only [List.mem_replicate] at hc
      exact hc.2
    · rename_i e j heq
      have hne : e ≠ EINTR :=
        stx_isEintr_false_ne (restartableGen_not_retry _ _ _ _ _ _ heq)
      simp only [Option.some.injEq] at h
      subst h
      refine ⟨by simp, ?_, by simp, ?_, hne⟩
      · intro e2 he2
        simp only [Option.some.injEq] at he2
        injection he2 with h3
        exact ⟨h3, rfl, h3 ▸ hne⟩
      · intro c hc
        simp only [List.mem_replicate] at hc
        exact hc.2
  · rename_i hst
    simp only [Option.some.injEq] at h
    subst h
    exact ⟨by simp, by simp, fun _ => ⟨by simpa using hst, rfl, rfl, rfl⟩,
      by simp, by decide⟩

/-- Tier A never issues a Tier B (sendfile) chunk. -/
theorem tierALoop_no_chunkB (env : Env) (count rfuel fuel ia ic : Nat)
    (ex : ALoopExit) (ia' ic' : Nat) (evs : List Ev)
    (h : tierALoop env count rfuel fuel ia ic = some (ex, ia', ic', evs))
    (c : Nat) (r : SysRes) : Ev.chunkB c r ∉ evs := by
  intro hm
  rcases (tierALoop_master env count rfuel fuel ia ic ex ia' ic' evs h).1
      _ hm with ⟨r2, hr2, _⟩ | ⟨b, hb⟩
  · exact Ev.noConfusion hr2
  · exact Ev.noConfusion hb

/-- Tier B never issues a Tier A (copy_file_range) chunk. -/
theorem tierBLoop_no_chunkA (env : Env) (count rfuel fuel ib ic : Nat)
    (o : Outcome) (ib' ic' : Nat) (evs : List Ev)
    (h : tierBLoop env count rfuel fuel ib ic = some (o, ib', ic', evs))
    (c : Nat) (r : SysRes) : Ev.chunkA c r ∉ evs := by
  intro hm
  rcases (tierBLoop_master env count rfuel fuel ib ic o ib' ic' evs h).1
      _ hm with ⟨r2, hr2, _⟩ | ⟨b, hb⟩
  · exact Ev.noConfusion hr2
  · exact Ev.noConfusion hb

/-! ### Claims -/

/-- C1, counterexample: with the range-copy primitive available, a
cancellation handle supplied and set, and the very first chunk
operation returning length 0, directCopy0 does not report Success: the
cancellation check runs before the completion check, so the call
throws UnixException(ECANCELED) and returns IOS_THROWN. -/
theorem C1_counterexample :
    directCopy0 envZeroCancel 4 4 =
      some (⟨IOS_THROWN, some (Exn.unixExn ECANCELED)⟩,
        [Ev.chunkA CANCEL_CHUNK (SysRes.ok 0), Ev.readCancel true]) ∧
    (⟨IOS_THROWN, some (Exn.unixExn ECANCELED)⟩ : Outcome) ≠ ⟨0, none⟩ :=
  ⟨rfl, by decide⟩

/-- C1, amended: in every terminating directCopy0 execution in which a
Tier A chunk operation returns length 0 and the cancellation flag is
never observed set, the copy is complete and the call reports Success
(returns 0 with no exception).  When the flag is set at the check
following the zero-length chunk, the outcome is Cancelled instead,
because the cancellation check precedes the completion check. -/
theorem C1_zero_chunk_success (env : Env) (fuel rfuel : Nat) (o : Outcome)
    (evs : List Ev) (c : Nat)
    (h : directCopy0 env fuel rfuel = some (o, evs))
    (hz : Ev.chunkA c (SysRes.ok 0) ∈ evs)
    (hnc : Ev.readCancel true ∉ evs) :
    o = ⟨0, none⟩ := by
  rcases directCopy0_inv env fuel rfuel o evs h with
    ⟨hcfr, ia', ic', evsA, hA, rfl⟩ |
    ⟨hcfr, ia', ic', evsA, hA, rfl, rfl⟩ |
    ⟨hcfr, r, ia', ic', evsA, ib2, ic2, evsB, hA, hr, hB, rfl⟩ |
    ⟨hcfr, ib2, ic2, evsB, hB, rfl⟩
  · have hterm := (tierALoop_master _ _ _ _ _ _ _ _ _ _ hA).2.2.1
      c (SysRes.ok 0) hz hnc (Or.inl rfl)
    exact ALoopExit.noConfusion hterm
  · rfl
  · have hzA : Ev.chunkA c (SysRes.ok 0) ∈ evsA := by
      rcases List.mem_append.mp hz with hx | hx
      · exact hx
      · exact absurd hx (tierBLoop_no_chunkA _ _ _ _ _ _ _ _ _ _ hB c _)
    have hncA : Ev.readCancel true ∉ evsA :=
      fun hx => hnc (List.mem_append.mpr (Or.inl hx))
    have hterm := (tierALoop_master _ _ _ _ _ _ _ _ _ _ hA).2.2.1
      c (SysRes.ok 0) hzA hncA (Or.inl rfl)
    injection hterm with h2
    exact absurd h2 hr
  · exact absurd hz (tierBLoop_no_chunkA _ _ _ _ _ _ _ _ _ _ hB c _)

/-- C1, witness: a run with no cancellation handle whose first chunk
returns 0 ends in Success. -/
theorem C1_zero_chunk_success_witness :
    directCopy0 envZeroPlain 4 4 =
      some (⟨0, none⟩, [Ev.chunkA SENDFILE_MAX (SysRes.ok 0)]) ∧
    (⟨0, none⟩ : Outcome) = ⟨0, none⟩ :=
  ⟨rfl, C1_zero_chunk_success envZeroPlain 4 4 ⟨0, none⟩
    [Ev.chunkA SENDFILE_MAX (SysRes.ok 0)] SENDFILE_MAX rfl
    (by decide) (by decide)⟩

/-- C2: whenever the cancellation flag is observed non-zero between
chunks, in either tier, the call terminates with the Cancelled outcome
(UnixException carrying ECANCELED, return IOS_THROWN), and the
observation is the final event of the execution, so no further chunk
transfer is issued after it. -/
theorem C2_cancel_cancels (env : Env) (fuel rfuel : Nat) (o : Outcome)
    (evs : List Ev)
    (h : directCopy0 env fuel rfuel = some (o, evs))
    (hc : Ev.readCancel true ∈ evs) :
    o = ⟨IOS_THROWN, some (Exn.unixExn ECANCELED)⟩ ∧
    ∃ pre, evs = pre ++ [Ev.readCancel true] := by
  rcases directCopy0_inv env fuel rfuel o evs h with
    ⟨hcfr, ia', ic', evsA, hA, rfl⟩ |
    ⟨hcfr, ia', ic', evsA, hA, rfl, rfl⟩ |
    ⟨hcfr, r, ia', ic', evsA, ib2, ic2, evsB, hA, hr, hB, rfl⟩ |
    ⟨hcfr, ib2, ic2, evsB, hB, rfl⟩
  · obtain ⟨hex, pre, hpre⟩ := (tierALoop_master _ _ _ _ _ _ _ _ _ _ hA).2.1 hc
    injection hex with hex2
    exact ⟨hex2, pre, hpre⟩
  · obtain ⟨hex, -⟩ := (tierALoop_master _ _ _ _ _ _ _ _ _ _ hA).2.1 hc
    exact ALoopExit.noConfusion hex
  · rcases List.mem_append.mp hc with hx | hx
    · obtain ⟨hex, -⟩ := (tierALoop_master _ _ _ _ _ _ _ _ _ _ hA).2.1 hx
      exact ALoopExit.noConfusion hex
    · obtain ⟨ho, pre, hpre⟩ :=
        (tierBLoop_master _ _ _ _ _ _ _ _ _ _ hB).2.2.1 hx
      exact ⟨ho, evsA ++ pre, by rw [hpre, List.append_assoc]⟩
  · obtain ⟨ho, pre, hpre⟩ :=
      (tierBLoop_master _ _ _ _ _ _ _ _ _ _ hB).2.2.1 hc
    exact ⟨ho, pre, hpre⟩

/-- C2, witness: with the flag already set and the first chunk
complete, the call reports Cancelled and the flag read ends the
trace. -/
theorem C2_cancel_cancels_witness :
    (⟨IOS_THROWN, some (Exn.unixExn ECANCELED)⟩ : Outcome) =
      ⟨IOS_THROWN, some (Exn.unixExn ECANCELED)⟩ ∧
    ∃ pre, [Ev.chunkA CANCEL_CHUNK (SysRes.ok 0), Ev.readCancel true] =
      pre ++ [Ev.readCancel true] :=
  C2_cancel_cancels envZeroCancel 4 4 _ _ rfl (by decide)

/-- C3, counterexample: with the capability table marking range-copy
absent (Tier A never attempted) and Tier B failing structurally
(ENOSYS), directCopy0 returns IOS_UNSUPPORTED_CASE, not
IOS_UNSUPPORTED as the claim states. -/
theorem C3_counterexample :
    directCopy0 envNoCfrEnosys 4 4 =
      some (⟨IOS_UNSUPPORTED_CASE, none⟩,
        [Ev.chunkB SENDFILE_MAX (SysRes.err ENOSYS)]) ∧
    IOS_UNSUPPORTED_CASE ≠ IOS_UNSUPPORTED :=
  ⟨rfl, by decide⟩

/-- C3, amended: a structural Tier B failure (EINVAL or ENOSYS) yields
IOS_UNSUPPORTED_CASE whether or not Tier A was attempted, and no
terminating directCopy0 execution ever returns IOS_UNSUPPORTED. -/
theorem C3_never_unsupported (env : Env) (fuel rfuel : Nat) (o : Outcome)
    (evs : List Ev)
    (h : directCopy0 env fuel rfuel = some (o, evs)) :
    o.ret ≠ IOS_UNSUPPORTED ∧
    (∀ c e, Ev.chunkB c (SysRes.err e) ∈ evs → e = EINVAL ∨ e = ENOSYS →
       o = ⟨IOS_UNSUPPORTED_CASE, none⟩) := by
  rcases directCopy0_inv env fuel rfuel o evs h with
    ⟨hcfr, ia', ic', evsA, hA, rfl⟩ |
    ⟨hcfr, ia', ic', evsA, hA, rfl, rfl⟩ |
    ⟨hcfr, r, ia', ic', evsA, ib2, ic2, evsB, hA, hr, hB, rfl⟩ |
    ⟨hcfr, ib2, ic2, evsB, hB, rfl⟩
  · constructor
    · rcases (tierALoop_master _ _ _ _ _ _ _ _ _ _ hA).2.2.2.2 o rfl with
        rfl | ⟨e, rfl, -⟩
      · decide
      · show IOS_THROWN ≠ IOS_UNSUPPORTED
        decide
    · intro c e hm _
      exact absurd hm (tierALoop_no_chunkB _ _ _ _ _ _ _ _ _ _ hA c _)
  · refine ⟨by show (0 : Int) ≠ IOS_UNSUPPORTED; decide, ?_⟩
    intro c e hm _
    exact absurd hm (tierALoop_no_chunkB _ _ _ _ _ _ _ _ _ _ hA c _)
  · constructor
    · exact ((tierBLoop_master _ _ _ _ _ _ _ _ _ _ hB).2.2.2.2).1
    · intro c e hm he
      have hmB : Ev.chunkB c (SysRes.err e) ∈ evsB := by
        rcases List.mem_append.mp hm with hx | hx
        · exact absurd hx (tierALoop_no_chunkB _ _ _ _ _ _ _ _ _ _ hA c _)
        · exact hx
      have ho := (tierBLoop_master _ _ _ _ _ _ _ _ _ _ hB).2.2.2.1 c e hmB
      rcases he with rfl | rfl
      · rw [ho, if_neg (by decide), if_pos (Or.inl rfl)]
      · rw [ho, if_neg (by decide), if_pos (Or.inr rfl)]
  · constructor
    · exact ((tierBLoop_master _ _ _ _ _ _ _ _ _ _ hB).2.2.2.2).1
    · intro c e hm he
      have ho := (tierBLoop_master _ _ _ _ _ _ _ _ _ _ hB).2.2.2.1 c e hm
      rcases he with rfl | rfl
      · rw [ho, if_neg (by decide), if_pos (Or.inl rfl)]
      · rw [ho, if_neg (by decide), if_pos (Or.inr rfl)]

/-- C3, witness: the amended statement evaluated on the
counterexample environment. -/
theorem C3_never_unsupported_witness :
    (⟨IOS_UNSUPPORTED_CASE, none⟩ : Outcome).ret ≠ IOS_UNSUPPORTED ∧
    (⟨IOS_UNSUPPORTED_CASE, none⟩ : Outcome) = ⟨IOS_UNSUPPORTED_CASE, none⟩ := by
  have h := C3_never_unsupported envNoCfrEnosys 4 4 ⟨IOS_UNSUPPORTED_CASE, none⟩
    [Ev.chunkB SENDFILE_MAX (SysRes.err ENOSYS)] rfl
  exact ⟨h.1, h.2 SENDFILE_MAX ENOSYS (by decide) (Or.inr rfl)⟩

/-- C4, counterexample: when the capability table reports
extended-stat unavailable, statx0 returns 0 — the very value returned
on success — so the return value alone cannot tell the NotPerformed
case apart from success. -/
theorem C4_counterexample :
    (statx0 stxEnvAbsent 3 true).map StatxOutcome.ret = some 0 ∧
    (statx0 stxEnvOk 3 true).map StatxOutcome.ret = some 0 :=
  ⟨rfl, rfl⟩

/-- C4, amended: when my_statx_func is NULL, statx0 and statxfd0
perform no stat call, write nothing into the attributes record, and
return 0 — the same value as success.  The caller distinguishes the
case out of band, via the supports_statx flag set during init, not via
the return value; the return value is distinct from every nonzero
errno. -/
theorem C4_statx_absent (env : StatxEnv) (rfuel : Nat) (fl : Bool) (fd : Int)
    (h : env.hasStatx = false) :
    statx0 env rfuel fl = some ⟨0, false, [], none⟩ ∧
    statxfd0 env rfuel fd = some ⟨0, false, [], none⟩ := by
  constructor <;> simp [statx0, statxfd0, statxCore, h]

/-- C4, witness: the amended statement evaluated with extended-stat
unavailable. -/
theorem C4_statx_absent_witness :
    statx0 stxEnvAbsent 3 true = some ⟨0, false, [], none⟩ ∧
    statxfd0 stxEnvAbsent 3 7 = some ⟨0, false, [], none⟩ :=
  C4_statx_absent stxEnvAbsent 3 true 7 rfl

/-- C5, counterexample: Tier A reports EINVAL, but because the
cancellation flag is set at the check that still runs after the
ignored error, the call reports Cancelled and never falls through to
Tier B — the trace holds no sendfile chunk. -/
theorem C5_counterexample :
    directCopy0 envEinvalCancel 4 4 =
      some (⟨IOS_THROWN, some (Exn.unixExn ECANCELED)⟩,
        [Ev.chunkA CANCEL_CHUNK (SysRes.err EINVAL), Ev.readCancel true]) ∧
    Ev.chunkB CANCEL_CHUNK (SysRes.ok 0) ∉
      [Ev.chunkA CANCEL_CHUNK (SysRes.err EINVAL), Ev.readCancel true] :=
  ⟨rfl, by decide⟩

/-- C5, amended: a Tier A error other than EINVAL, ENOSYS or EXDEV is
fatal — the call reports the thrown IOException carrying that errno
and Tier B is never attempted; a Tier A error among EINVAL, ENOSYS and
EXDEV abandons Tier A, and provided the cancellation flag is not
observed set at the check that follows, execution falls through to
Tier B (a sendfile chunk is issued).  When the flag is observed set
there, the call reports Cancelled instead and Tier B is never
attempted. -/
theorem C5_tierA_errors (env : Env) (fuel rfuel : Nat) (o : Outcome)
    (evs : List Ev)
    (h : directCopy0 env fuel rfuel = some (o, evs)) :
    (∀ c e, Ev.chunkA c (SysRes.err e) ∈ evs →
       ¬(e = EINVAL ∨ e = ENOSYS ∨ e = EXDEV) →
       o = ⟨IOS_THROWN, some (Exn.ioExn e)⟩ ∧
       ∀ c2 r, Ev.chunkB c2 r ∉ evs) ∧
    (∀ c e, Ev.chunkA c (SysRes.err e) ∈ evs →
       (e = EINVAL ∨ e = ENOSYS ∨ e = EXDEV) →
       Ev.readCancel true ∉ evs →
       ∃ c2 r, Ev.chunkB c2 r ∈ evs) := by
  rcases directCopy0_inv env fuel rfuel o evs h with
    ⟨hcfr, ia', ic', evsA, hA, rfl⟩ |
    ⟨hcfr, ia', ic', evsA, hA, rfl, rfl⟩ |
    ⟨hcfr, r, ia', ic', evsA, ib2, ic2, evsB, hA, hr, hB, rfl⟩ |
    ⟨hcfr, ib2, ic2, evsB, hB, rfl⟩
  · constructor
    · intro c e hm hfatal
      have hex := (tierALoop_master _ _ _ _ _ _ _ _ _ _ hA).2.2.2.1 c e hm hfatal
      injection hex with hex2
      exact ⟨hex2, fun c2 r => tierALoop_no_chunkB _ _ _ _ _ _ _ _ _ _ hA c2 r⟩
    · intro c e hm hig hnc
      have hterm := (tierALoop_master _ _ _ _ _ _ _ _ _ _ hA).2.2.1
        c (SysRes.err e) hm hnc (Or.inr ⟨e, rfl, hig⟩)
      exact absurd hterm (by simp)
  · constructor
    · intro c e hm hfatal
      have hex := (tierALoop_master _ _ _ _ _ _ _ _ _ _ hA).2.2.2.1 c e hm hfatal
      exact absurd hex (by simp)
    · intro c e hm hig hnc
      have hterm := (tierALoop_master _ _ _ _ _ _ _ _ _ _ hA).2.2.1
        c (SysRes.err e) hm hnc (Or.inr ⟨e, rfl, hig⟩)
      injection hterm with h2
      exact absurd h2.symm (by simp)
  · have hBchunk := (tierBLoop_master _ _ _ _ _ _ _ _ _ _ hB).2.1
    constructor
    · intro c e hm hfatal
      have hmA : Ev.chunkA c (SysRes.err e) ∈ evsA := by
        rcases List.mem_append.mp hm with hx | hx
        · exact hx
        · exact absurd hx (tierBLoop_no_chunkA _ _ _ _ _ _ _ _ _ _ hB c _)
      have hex := (tierALoop_master _ _ _ _ _ _ _ _ _ _ hA).2.2.2.1 c e hmA hfatal
      exact absurd hex (by simp)
    · intro c e hm hig hnc
      obtain ⟨c2, r2, hc2⟩ := hBchunk
      exact ⟨c2, r2, List.mem_append.mpr (Or.inr hc2)⟩
  · constructor
    · intro c e hm hfatal
      exact absurd hm (tierBLoop_no_chunkA _ _ _ _ _ _ _ _ _ _ hB c _)
    · intro c e hm hig hnc
      exact absurd hm (tierBLoop_no_chunkA _ _ _ _ _ _ _ _ _ _ hB c _)

/-- C5, witness: with no cancellation handle, a Tier A EINVAL falls
through and a Tier B chunk is issued. -/
theorem C5_tierA_errors_witness :
    directCopy0 envEinvalPlain 4 4 =
      some (⟨0, none⟩, [Ev.chunkA SENDFILE_MAX (SysRes.err EINVAL),
        Ev.chunkB SENDFILE_MAX (SysRes.ok 0)]) ∧
    ∃ c2 r, Ev.chunkB c2 r ∈
      [Ev.chunkA SENDFILE_MAX (SysRes.err EINVAL),
       Ev.chunkB SENDFILE_MAX (SysRes.ok 0)] :=
  ⟨rfl, (C5_tierA_errors envEinvalPlain 4 4 ⟨0, none⟩
      [Ev.chunkA SENDFILE_MAX (SysRes.err EINVAL),
       Ev.chunkB SENDFILE_MAX (SysRes.ok 0)] rfl).2
    SENDFILE_MAX EINVAL (by decide) (Or.inl rfl) (by decide)⟩

/-- C6: for every Tier B (sendfile) error return, EAGAIN yields
IOS_UNAVAILABLE, EINVAL or ENOSYS yields IOS_UNSUPPORTED_CASE, and any
other errno yields IOS_THROWN with a UnixException carrying that raw
errno. -/
theorem C6_tierB_errors (env : Env) (fuel rfuel : Nat) (o : Outcome)
    (evs : List Ev) (c e : Nat)
    (h : directCopy0 env fuel rfuel = some (o, evs))
    (hm : Ev.chunkB c (SysRes.err e) ∈ evs) :
    (e = EAGAIN → o = ⟨IOS_UNAVAILABLE, none⟩) ∧
    ((e = EINVAL ∨ e = ENOSYS) → o = ⟨IOS_UNSUPPORTED_CASE, none⟩) ∧
    (e ≠ EAGAIN ∧ e ≠ EINVAL ∧ e ≠ ENOSYS →
       o = ⟨IOS_THROWN, some (Exn.unixExn e)⟩) := by
  have main : ∀ (count fuel2 ib ic : Nat) (ib' ic' : Nat) (evsB : List Ev),
      tierBLoop env count rfuel fuel2 ib ic = some (o, ib', ic', evsB) →
      Ev.chunkB c (SysRes.err e) ∈ evsB →
      (e = EAGAIN → o = ⟨IOS_UNAVAILABLE, none⟩) ∧
      ((e = EINVAL ∨ e = ENOSYS) → o = ⟨IOS_UNSUPPORTED_CASE, none⟩) ∧
      (e ≠ EAGAIN ∧ e ≠ EINVAL ∧ e ≠ ENOSYS →
        o = ⟨IOS_THROWN, some (Exn.unixExn e)⟩) := by
    intro count fuel2 ib ic ib' ic' evsB hB hmB
    have ho := (tierBLoop_master _ _ _ _ _ _ _ _ _ _ hB).2.2.2.1 c e hmB
    refine ⟨?_, ?_, ?_⟩
    · rintro rfl
      rw [ho, if_pos rfl]
    · rintro (rfl | rfl)
      · rw [ho, if_neg (by decide), if_pos (Or.inl rfl)]
      · rw [ho, if_neg (by decide), if_pos (Or.inr rfl)]
    · rintro ⟨h1, h2, h3⟩
      rw [ho, if_neg h1, if_neg ?_]
      rintro (hx | hx)
      · exact h2 hx
      · exact h3 hx
  rcases directCopy0_inv env fuel rfuel o evs h with
    ⟨hcfr, ia', ic', evsA, hA, rfl⟩ |
    ⟨hcfr, ia', ic', evsA, hA, rfl, rfl⟩ |
    ⟨hcfr, r, ia', ic', evsA, ib2, ic2, evsB, hA, hr, hB, rfl⟩ |
    ⟨hcfr, ib2, ic2, evsB, hB, rfl⟩
  · exact absurd hm (tierALoop_no_chunkB _ _ _ _ _ _ _ _ _ _ hA c _)
  · exact absurd hm (tierALoop_no_chunkB _ _ _ _ _ _ _ _ _ _ hA c _)
  · have hmB : Ev.chunkB c (SysRes.err e) ∈ evsB := by
      rcases List.mem_append.mp hm with hx | hx
      · exact absurd hx (tierALoop_no_chunkB _ _ _ _ _ _ _ _ _ _ hA c _)
      · exact hx
    exact main _ _ _ _ _ _ _ hB hmB
  · exact main _ _ _ _ _ _ _ hB hm

/-- C6, witness: a first-chunk EAGAIN from sendfile yields
IOS_UNAVAILABLE. -/
theorem C6_tierB_errors_witness :
    directCopy0 envNoCfrEagain 4 4 =
      some (⟨IOS_UNAVAILABLE, none⟩,
        [Ev.chunkB SENDFILE_MAX (SysRes.err EAGAIN)]) ∧
    (⟨IOS_UNAVAILABLE, none⟩ : Outcome) = ⟨IOS_UNAVAILABLE, none⟩ :=
  ⟨rfl, (C6_tierB_errors envNoCfrEagain 4 4 ⟨IOS_UNAVAILABLE, none⟩
      [Ev.chunkB SENDFILE_MAX (SysRes.err EAGAIN)] SENDFILE_MAX EAGAIN
      rfl (by decide)).1 rfl⟩

/-- No Tier A chunk event ever carries an EINTR error: RESTARTABLE
absorbs interruptions below the chunk level. -/
theorem tierALoop_no_eintr (env : Env) (count rfuel fuel ia ic : Nat)
    (ex : ALoopExit) (ia' ic' : Nat) (evs : List Ev)
    (h : tierALoop env count rfuel fuel ia ic = some (ex, ia', ic', evs))
    (c : Nat) : Ev.chunkA c (SysRes.err EINTR) ∉ evs := by
  intro hm
  rcases (tierALoop_master env count rfuel fuel ia ic ex ia' ic' evs h).1
      _ hm with ⟨r2, heq, hni⟩ | ⟨b, hb⟩
  · injection heq with h1 h2
    rw [← h2] at hni
    simp [SysRes.isEintr] at hni
  · exact Ev.noConfusion hb

/-- No Tier B chunk event ever carries an EINTR error. -/
theorem tierBLoop_no_eintr (env : Env) (count rfuel fuel ib ic : Nat)
    (o : Outcome) (ib' ic' : Nat) (evs : List Ev)
    (h : tierBLoop env count rfuel fuel ib ic = some (o, ib', ic', evs))
    (c : Nat) : Ev.chunkB c (SysRes.err EINTR) ∉ evs := by
  intro hm
  rcases (tierBLoop_master env count rfuel fuel ib ic o ib' ic' evs h).1
      _ hm with ⟨r2, heq, hni⟩ | ⟨b, hb⟩
  · injection heq with h1 h2
    rw [← h2] at hni
    simp [SysRes.isEintr] at hni
  · exact Ev.noConfusion hb

/-- Every Tier A chunk event requests exactly `count` bytes. -/
theorem tierALoop_count (env : Env) (count rfuel fuel ia ic : Nat)
    (ex : ALoopExit) (ia' ic' : Nat) (evs : List Ev)
    (h : tierALoop env count rfuel fuel ia ic = some (ex, ia', ic', evs))
    (c : Nat) (r : SysRes) (hm : Ev.chunkA c r ∈ evs) : c = count := by
  rcases (tierALoop_master env count rfuel fuel ia ic ex ia' ic' evs h).1
      _ hm with ⟨r2, heq, -⟩ | ⟨b, hb⟩
  · injection heq with h1 h2
  · exact Ev.noConfusion hb

/-- Every Tier B chunk event requests exactly `count` bytes. -/
theorem tierBLoop_count (env : Env) (count rfuel fuel ib ic : Nat)
    (o : Outcome) (ib' ic' : Nat) (evs : List Ev)
    (h : tierBLoop env count rfuel fuel ib ic = some (o, ib', ic', evs))
    (c : Nat) (r : SysRes) (hm : Ev.chunkB c r ∈ evs) : c = count := by
  rcases (tierBLoop_master env count rfuel fuel ib ic o ib' ic' evs h).1
      _ hm with ⟨r2, heq, -⟩ | ⟨b, hb⟩
  · injection heq with h1 h2
  · exact Ev.noConfusion hb

/-- C7: the RESTARTABLE discipline never lets an interrupted-call
error escape: a restarted call never resolves to EINTR, the metadata
queries never return EINTR, and no terminating directCopy0 execution
surfaces EINTR in its thrown exception or sees an EINTR chunk
result. -/
theorem C7_eintr_never_surfaced :
    (∀ (raw : Nat → SysRes) (fuel i : Nat) (r : SysRes) (j : Nat),
       restartableGen SysRes.isEintr raw fuel i = some (r, j) →
       r ≠ SysRes.err EINTR) ∧
    (∀ (env : StatxEnv) (rfuel : Nat) (fl : Bool) (out : StatxOutcome),
       statx0 env rfuel fl = some out → out.ret ≠ EINTR) ∧
    (∀ (env : StatxEnv) (rfuel : Nat) (fd : Int) (out : StatxOutcome),
       statxfd0 env rfuel fd = some out → out.ret ≠ EINTR) ∧
    (∀ (env : Env) (fuel rfuel : Nat) (o : Outcome) (evs : List Ev),
       directCopy0 env fuel rfuel = some (o, evs) →
       (∀ e, o.exn = some (Exn.ioExn e) → e ≠ EINTR) ∧
       (∀ e, o.exn = some (Exn.unixExn e) → e ≠ EINTR) ∧
       (∀ c, Ev.chunkA c (SysRes.err EINTR) ∉ evs ∧
             Ev.chunkB c (SysRes.err EINTR) ∉ evs)) := by
  refine ⟨?_, ?_, ?_, ?_⟩
  · intro raw fuel i r j h contra
    subst contra
    have := restartableGen_not_retry _ _ _ _ _ _ h
    simp [SysRes.isEintr] at this
  · intro env rfuel fl out h
    exact (statxCore_cases _ _ _ _ h).2.2.2.2
  · intro env rfuel fd out h
    exact (statxCore_cases _ _ _ _ h).2.2.2.2
  · intro env fuel rfuel o evs h
    rcases directCopy0_inv env fuel rfuel o evs h with
      ⟨hcfr, ia', ic', evsA, hA, rfl⟩ |
      ⟨hcfr, ia', ic', evsA, hA, rfl, rfl⟩ |
      ⟨hcfr, r, ia', ic', evsA, ib2, ic2, evsB, hA, hr, hB, rfl⟩ |
      ⟨hcfr, ib2, ic2, evsB, hB, rfl⟩
    · refine ⟨?_, ?_, fun c => ⟨tierALoop_no_eintr _ _ _ _ _ _ _ _ _ _ hA c,
        tierALoop_no_chunkB _ _ _ _ _ _ _ _ _ _ hA c _⟩⟩
      · intro e he
        rcases (tierALoop_master _ _ _ _ _ _ _ _ _ _ hA).2.2.2.2 o rfl with
          rfl | ⟨e2, rfl, hne⟩
        · simp [cancelledOutcome] at he
        · simp only [Option.some.injEq] at he
          injection he with h3
          exact h3 ▸ hne
      · intro e he
        rcases (tierALoop_master _ _ _ _ _ _ _ _ _ _ hA).2.2.2.2 o rfl with
          rfl | ⟨e2, rfl, hne⟩
        · simp only [cancelledOutcome, Option.some.injEq] at he
          injection he with h3
          subst h3
          decide
        · simp at he
    · exact ⟨by simp, by simp,
        fun c => ⟨tierALoop_no_eintr _ _ _ _ _ _ _ _ _ _ hA c,
          tierALoop_no_chunkB _ _ _ _ _ _ _ _ _ _ hA c _⟩⟩
    · obtain ⟨-, hio, hunix⟩ := (tierBLoop_master _ _ _ _ _ _ _ _ _ _ hB).2.2.2.2
      refine ⟨fun e he => absurd he (by intro hx; exact hio e hx),
        hunix, fun c => ⟨?_, ?_⟩⟩
      · intro hm
        rcases List.mem_append.mp hm with hx | hx
        · exact tierALoop_no_eintr _ _ _ _ _ _ _ _ _ _ hA c hx
        · exact tierBLoop_no_chunkA _ _ _ _ _ _ _ _ _ _ hB c _ hx
      · intro hm
        rcases List.mem_append.mp hm with hx | hx
        · exact tierALoop_no_chunkB _ _ _ _ _ _ _ _ _ _ hA c _ hx
        · exact tierBLoop_no_eintr _ _ _ _ _ _ _ _ _ _ hB c hx
    · obtain ⟨-, hio, hunix⟩ := (tierBLoop_master _ _ _ _ _ _ _ _ _ _ hB).2.2.2.2
      exact ⟨fun e he => absurd he (by intro hx; exact hio e hx), hunix,
        fun c => ⟨tierBLoop_no_chunkA _ _ _ _ _ _ _ _ _ _ hB c _,
          tierBLoop_no_eintr _ _ _ _ _ _ _ _ _ _ hB c⟩⟩

/-- C7, witness: each component evaluated at a concrete input,
including a run whose first raw call was interrupted and transparently
restarted. -/
theorem C7_eintr_never_surfaced_witness :
    SysRes.ok 0 ≠ SysRes.err EINTR ∧
    (⟨0, true, [statx0Call true], some StxRes.ok⟩ : StatxOutcome).ret ≠ EINTR ∧
    (⟨0, true, [statxfd0Call 7], some StxRes.ok⟩ : StatxOutcome).ret ≠ EINTR ∧
    Ev.chunkA SENDFILE_MAX (SysRes.err EINTR) ∉
      [Ev.chunkA SENDFILE_MAX (SysRes.ok 0)] :=
  ⟨C7_eintr_never_surfaced.1 (fun _ => SysRes.ok 0) 1 0 (SysRes.ok 0) 1 rfl,
   C7_eintr_never_surfaced.2.1 stxEnvOk 3 true
     ⟨0, true, [statx0Call true], some StxRes.ok⟩ rfl,
   C7_eintr_never_surfaced.2.2.1 stxEnvOk 3 7
     ⟨0, true, [statxfd0Call 7], some StxRes.ok⟩ rfl,
   ((C7_eintr_never_surfaced.2.2.2 envEintrOnce 4 4 ⟨0, none⟩
       [Ev.chunkA SENDFILE_MAX (SysRes.ok 0)] rfl).2.2 SENDFILE_MAX).1⟩

/-- C8: every chunk of either tier within one directCopy0 call
requests the same fixed byte count: 1048576 when a cancellation handle
was supplied, otherwise 0x7ffff000 (the most sendfile can transfer in
one call). -/
theorem C8_chunk_size (env : Env) (fuel rfuel : Nat) (o : Outcome)
    (evs : List Ev) (c : Nat) (r : SysRes)
    (h : directCopy0 env fuel rfuel = some (o, evs))
    (hm : Ev.chunkA c r ∈ evs ∨ Ev.chunkB c r ∈ evs) :
    c = chunkCount env.hasCancel ∧
    (env.hasCancel = true → c = 1048576) ∧
    (env.hasCancel = false → c = 0x7ffff000) := by
  have hc : c = chunkCount env.hasCancel := by
    rcases directCopy0_inv env fuel rfuel o evs h with
      ⟨hcfr, ia', ic', evsA, hA, rfl⟩ |
      ⟨hcfr, ia', ic', evsA, hA, rfl, rfl⟩ |
      ⟨hcfr, r2, ia', ic', evsA, ib2, ic2, evsB, hA, hr, hB, rfl⟩ |
      ⟨hcfr, ib2, ic2, evsB, hB, rfl⟩
    · rcases hm with hm | hm
      · exact tierALoop_count _ _ _ _ _ _ _ _ _ _ hA c r hm
      · exact absurd hm (tierALoop_no_chunkB _ _ _ _ _ _ _ _ _ _ hA c _)
    · rcases hm with hm | hm
      · exact tierALoop_count _ _ _ _ _ _ _ _ _ _ hA c r hm
      · exact absurd hm (tierALoop_no_chunkB _ _ _ _ _ _ _ _ _ _ hA c _)
    · rcases hm with hm | hm
      · rcases List.mem_append.mp hm with hx | hx
        · exact tierALoop_count _ _ _ _ _ _ _ _ _ _ hA c r hx
        · exact absurd hx (tierBLoop_no_chunkA _ _ _ _ _ _ _ _ _ _ hB c _)
      · rcases List.mem_append.mp hm with hx | hx
        · exact absurd hx (tierALoop_no_chunkB _ _ _ _ _ _ _ _ _ _ hA c _)
        · exact tierBLoop_count _ _ _ _ _ _ _ _ _ _ hB c r hx
    · rcases hm with hm | hm
      · exact absurd hm (tierBLoop_no_chunkA _ _ _ _ _ _ _ _ _ _ hB c _)
      · exact tierBLoop_count _ _ _ _ _ _ _ _ _ _ hB c r hm
  refine ⟨hc, ?_, ?_⟩
  · intro hx
    rw [hc, chunkCount, hx]
    simp [CANCEL_CHUNK]
  · intro hx
    rw [hc, chunkCount, hx]
    simp [SENDFILE_MAX]

/-- C8, witness: with a cancellation handle the single issued chunk
requested 1048576 bytes. -/
theorem C8_chunk_size_witness :
    CANCEL_CHUNK = chunkCount true ∧
    (true = true → CANCEL_CHUNK = 1048576) ∧
    (true = false → CANCEL_CHUNK = 0x7ffff000) :=
  C8_chunk_size envZeroCancel 4 4
    ⟨IOS_THROWN, some (Exn.unixExn ECANCELED)⟩
    [Ev.chunkA CANCEL_CHUNK (SysRes.ok 0), Ev.readCancel true]
    CANCEL_CHUNK (SysRes.ok 0) rfl (Or.inl (by decide))

/-- C9: with follow_symlinks=false the flags passed to the statx
primitive carry AT_SYMLINK_NOFOLLOW; with follow_symlinks=true they do
not; apart from that bit the flags coincide, and the requested mask is
STATX_ALL in both cases; and every raw call a statx0 execution issues
uses exactly these arguments. -/
theorem C9_symlink_policy :
    (statx0Call false).flags &&& AT_SYMLINK_NOFOLLOW ≠ 0 ∧
    (statx0Call true).flags &&& AT_SYMLINK_NOFOLLOW = 0 ∧
    (statx0Call false).flags = (statx0Call true).flags ||| AT_SYMLINK_NOFOLLOW ∧
    (statx0Call false).mask = (statx0Call true).mask ∧
    (statx0Call true).mask = STATX_ALL ∧
    (∀ (env : StatxEnv) (rfuel : Nat) (fl : Bool) (out : StatxOutcome),
       statx0 env rfuel fl = some out →
       ∀ call ∈ out.calls, call = statx0Call fl) := by
  refine ⟨by decide, by decide, by decide, by decide, by decide, ?_⟩
  intro env rfuel fl out h call hc
  exact (statxCore_cases _ _ _ _ h).2.2.2.1 call hc

/-- C9, witness: a no-follow query issues its stat call with the
recorded no-follow argument block. -/
theorem C9_symlink_policy_witness :
    statx0 stxEnvOk 3 false =
      some ⟨0, true, [statx0Call false], some StxRes.ok⟩ ∧
    statx0Call false = statx0Call false :=
  ⟨rfl, C9_symlink_policy.2.2.2.2.2 stxEnvOk 3 false
    ⟨0, true, [statx0Call false], some StxRes.ok⟩ rfl
    (statx0Call false) (by decide)⟩

/-- C10: for both metadata queries, the attributes record is written
(copy_statx_attributes invoked) exactly when the stat call succeeded;
a failed stat returns its errno with no write, and the
statx-unavailable case returns 0 with no write and no stat call. -/
theorem C10_write_iff_success (env : StatxEnv) (rfuel : Nat) (fl : Bool)
    (fd : Int) (out outF : StatxOutcome)
    (h : statx0 env rfuel fl = some out)
    (hF : statxfd0 env rfuel fd = some outF) :
    (out.wrote = true ↔ out.statRes = some StxRes.ok) ∧
    (outF.wrote = true ↔ outF.statRes = some StxRes.ok) ∧
    (∀ e, out.statRes = some (StxRes.err e) →
       out.ret = e ∧ out.wrote = false) ∧
    (∀ e, outF.statRes = some (StxRes.err e) →
       outF.ret = e ∧ outF.wrote = false) ∧
    (out.statRes = none →
       env.hasStatx = false ∧ out.ret = 0 ∧ out.wrote = false) ∧
    (outF.statRes = none →
       env.hasStatx = false ∧ outF.ret = 0 ∧ outF.wrote = false) := by
  obtain ⟨h1, h2, h3, -, -⟩ := statxCore_cases _ _ _ _ h
  obtain ⟨g1, g2, g3, -, -⟩ := statxCore_cases _ _ _ _ hF
  exact ⟨h1, g1, fun e he => ⟨(h2 e he).1, (h2 e he).2.1⟩,
    fun e he => ⟨(g2 e he).1, (g2 e he).2.1⟩,
    fun hn => ⟨(h3 hn).1, (h3 hn).2.1, (h3 hn).2.2.1⟩,
    fun hn => ⟨(g3 hn).1, (g3 hn).2.1, (g3 hn).2.2.1⟩⟩

/-- C10, witness: a successful stat writes the record. -/
theorem C10_write_iff_success_witness :
    (⟨0, true, [statx0Call true], some StxRes.ok⟩ : StatxOutcome).wrote = true :=
  (C10_write_iff_success stxEnvOk 3 true 7
    ⟨0, true, [statx0Call true], some StxRes.ok⟩
    ⟨0, true, [statxfd0Call 7], some StxRes.ok⟩ rfl rfl).1.mpr rfl

end LinuxDispatch
